import Mathlib

/-!
Verification of the ghost-mcp request/authentication/retry core.

The Python modules under src/ghost_mcp (types/errors.py, utils/retry.py,
auth/admin_auth.py, auth/content_auth.py, client.py) are shallowly embedded
below: pure functions become Lean functions, the mutable token cache and the
caller-supplied params dictionary become explicit state passing, and raised
exceptions become Except values.  Wall-clock time is an explicit rational
parameter; Python int(time.time()) is the floor of that parameter.
-/

namespace GhostMCP

/-- Exception values of the ghost_mcp error taxonomy (types/errors.py).
Each constructor mirrors one concrete subclass of GhostMCPError, carrying the
message, the optional free-form context and the optional request id (the
GhostApiError subclass additionally carries an optional machine code; for the
other subclasses the code is the fixed per-class constant and is not repeated
here).  The `otherExc` constructor stands for any Python exception that is not
an instance of one of these classes (for example ValueError), carrying the
exception type name and its string rendering. -/
inductive PyExc where
  | networkError (message : String) (context : Option String) (requestId : Option String)
  | authenticationError (message : String) (context : Option String) (requestId : Option String)
  | ghostApiError (message : String) (code : Option String) (context : Option String)
      (requestId : Option String)
  | validationError (message : String) (context : Option String) (requestId : Option String)
  | fileUploadError (message : String) (context : Option String) (requestId : Option String)
  | mcpProtocolError (message : String) (context : Option String) (requestId : Option String)
  | otherExc (typeName : String) (message : String)
deriving DecidableEq, Repr

/-- Does the character list `pat` occur as a prefix of `l`?  Helper for the
embedding of the Python substring test. -/
def charsHavePre (pat l : List Char) : Bool :=
  match pat, l with
  | [], _ => true
  | _ :: _, [] => false
  | p :: ps, c :: cs => p == c && charsHavePre ps cs

/-- Does the character list `pat` occur contiguously anywhere inside `l`? -/
def charsHaveSub (pat l : List Char) : Bool :=
  match l with
  | [] => pat.isEmpty
  | _ :: cs => charsHavePre pat l || charsHaveSub pat cs

/-- Embedding of the Python substring test `pat in s`. -/
def strContains (s pat : String) : Bool :=
  charsHaveSub pat.data s.data

/-- Embedding of _should_retry (utils/retry.py lines 25-60): retry transient
network errors; never retry authentication or validation errors; retry a
Ghost API error only when its context carries "HTTP 5" (a 5xx status) or
"HTTP 429"; retry any unrecognized exception type.  The Python guard
`exception.context and ... in exception.context` is truthiness on the
optional context string (None and the empty string are falsy). -/
def shouldRetry (e : PyExc) : Bool :=
  match e with
  | .networkError .. => true
  | .authenticationError .. => false
  | .validationError .. => false
  | .ghostApiError _ _ context _ =>
      match context with
      | some ctx =>
          if !ctx.data.isEmpty && strContains ctx "HTTP 5" then true
          else if !ctx.data.isEmpty && strContains ctx "HTTP 429" then true
          else false
      | none => false
  | .fileUploadError .. => true
  | .mcpProtocolError .. => true
  | .otherExc .. => true

/-- Embedding of RetryConfig (utils/retry.py lines 16-23) with the numeric
defaults of the source; delays are modelled as rationals. -/
structure RetryConfig where
  max_retries : Nat := 3
  base_delay : ℚ := 1
  max_delay : ℚ := 10
  exponential_base : ℚ := 2
  jitter : Bool := true

/-- Embedding of the delay computation of with_retry (utils/retry.py lines
101-110): exponential backoff capped at max_delay, then scaled by the jitter
factor 0.5 + random.random() * 0.5 when jitter is enabled; `rand attempt`
stands for the random.random() draw made after failed attempt `attempt`. -/
def jitteredDelay (cfg : RetryConfig) (rand : Nat → ℚ) (attempt : Nat) : ℚ :=
  let d0 := min (cfg.base_delay * cfg.exponential_base ^ attempt) cfg.max_delay
  if cfg.jitter then d0 * (1/2 + rand attempt * (1/2)) else d0

/-- Embedding of the attempt loop of with_retry (utils/retry.py lines 72-121).
The operation is modelled as a map from the 0-based attempt index to the
outcome of that invocation.  The loop runs with `fuel = config.max_retries −
attempt` remaining iterations after the current one, so `fuel = 0` is the
final permitted attempt, on which the loop breaks and re-raises whether or
not the error is retryable — exactly as the Python loop does.  The result
triple carries the propagated outcome, the number of invocations of the
operation, and the list of delays passed to asyncio.sleep (sleeping itself
and logging have no functional effect and are dropped). -/
def retryGo (op : Nat → Except PyExc α) (cfg : RetryConfig) (rand : Nat → ℚ) :
    Nat → Nat → Except PyExc α × Nat × List ℚ
  | attempt, 0 =>
    match op attempt with
    | .ok v => (.ok v, 1, [])
    | .error e => (.error e, 1, [])
  | attempt, fuel + 1 =>
    match op attempt with
    | .ok v => (.ok v, 1, [])
    | .error e =>
      if shouldRetry e then
        let r := retryGo op cfg rand (attempt + 1) fuel
        (r.1, r.2.1 + 1, jitteredDelay cfg rand attempt :: r.2.2)
      else (.error e, 1, [])

/-- Embedding of with_retry (utils/retry.py lines 63-126): run the attempt
loop starting at attempt index 0 with max_retries further attempts
permitted. -/
def with_retry (op : Nat → Except PyExc α) (cfg : RetryConfig) (rand : Nat → ℚ) :
    Except PyExc α × Nat × List ℚ :=
  retryGo op cfg rand 0 cfg.max_retries

/-- A successful invocation returns its result at once with no further
invocations and no delay. -/
theorem retryGo_ok (op : Nat → Except PyExc α) (cfg : RetryConfig) (rand : Nat → ℚ)
    (fuel attempt : Nat) (v : α) (h : op attempt = .ok v) :
    retryGo op cfg rand attempt fuel = (.ok v, 1, []) := by
  cases fuel <;> simp [retryGo, h]

/-- A non-retryable failure propagates at once with no further invocations. -/
theorem retryGo_stop (op : Nat → Except PyExc α) (cfg : RetryConfig) (rand : Nat → ℚ)
    (fuel attempt : Nat) (e : PyExc) (h : op attempt = .error e)
    (hr : shouldRetry e = false) :
    retryGo op cfg rand attempt fuel = (.error e, 1, []) := by
  cases fuel <;> simp [retryGo, h, hr]

/-- A retryable failure with fuel remaining recurses at the next attempt
index, adding one invocation and recording one delay. -/
theorem retryGo_step (op : Nat → Except PyExc α) (cfg : RetryConfig) (rand : Nat → ℚ)
    (fu attempt : Nat) (e : PyExc) (h : op attempt = .error e)
    (hr : shouldRetry e = true) :
    retryGo op cfg rand attempt (fu + 1) =
      ((retryGo op cfg rand (attempt + 1) fu).1,
       (retryGo op cfg rand (attempt + 1) fu).2.1 + 1,
       jitteredDelay cfg rand attempt :: (retryGo op cfg rand (attempt + 1) fu).2.2) := by
  simp [retryGo, h, hr]

/-- The attempt loop never invokes the operation more than fuel + 1 times. -/
theorem retryGo_count_le (op : Nat → Except PyExc α) (cfg : RetryConfig) (rand : Nat → ℚ) :
    ∀ fuel attempt, (retryGo op cfg rand attempt fuel).2.1 ≤ fuel + 1 := by
  intro fuel
  induction fuel with
  | zero =>
    intro attempt
    cases h : op attempt <;> simp [retryGo, h]
  | succ fu ih =>
    intro attempt
    cases h : op attempt with
    | ok v => simp [retryGo_ok op cfg rand (fu + 1) attempt v h]
    | error e =>
      by_cases hr : shouldRetry e
      · have hih := ih (attempt + 1)
        rw [retryGo_step op cfg rand fu attempt e h hr]
        dsimp only
        omega
      · rw [retryGo_stop op cfg rand (fu + 1) attempt e h (by simpa using hr)]
        dsimp only
        omega

/-- Running the loop past k retryable failures reaches attempt index
attempt + k with k fewer units of fuel and k extra invocations recorded. -/
theorem retryGo_skip (op : Nat → Except PyExc α) (cfg : RetryConfig) (rand : Nat → ℚ) :
    ∀ (k fuel attempt : Nat), k ≤ fuel →
      (∀ i, i < k → ∃ e, op (attempt + i) = .error e ∧ shouldRetry e = true) →
      (retryGo op cfg rand attempt fuel).1 =
        (retryGo op cfg rand (attempt + k) (fuel - k)).1 ∧
      (retryGo op cfg rand attempt fuel).2.1 =
        (retryGo op cfg rand (attempt + k) (fuel - k)).2.1 + k := by
  intro k
  induction k with
  | zero => intro fuel attempt _ _; simp
  | succ kk ih =>
    intro fuel attempt hk hfail
    obtain ⟨fu, rfl⟩ : ∃ fu, fuel = fu + 1 := ⟨fuel - 1, by omega⟩
    obtain ⟨e, he, hre⟩ := hfail 0 (by omega)
    simp only [Nat.add_zero] at he
    have hnext := ih fu (attempt + 1) (by omega)
      (fun i hi => by
        have := hfail (i + 1) (by omega)
        simpa [Nat.add_assoc, Nat.add_comm 1 i] using this)
    rw [retryGo_step op cfg rand fu attempt e he hre]
    dsimp only
    have harith : attempt + 1 + kk = attempt + (kk + 1) := by omega
    have hfuel : fu - kk = fu + 1 - (kk + 1) := by omega
    rw [harith, hfuel] at hnext
    exact ⟨hnext.1, by rw [hnext.2]; omega⟩

/-- The delay recorded at position i of the delay list produced from attempt
index `attempt` is exactly the backoff formula evaluated at attempt index
attempt + i, with the jitter factor applied when jitter is enabled. -/
theorem retryGo_delay_get (op : Nat → Except PyExc α) (cfg : RetryConfig) (rand : Nat → ℚ) :
    ∀ (fuel attempt i : Nat) (h : i < (retryGo op cfg rand attempt fuel).2.2.length),
      (retryGo op cfg rand attempt fuel).2.2.get ⟨i, h⟩ =
        jitteredDelay cfg rand (attempt + i) := by
  intro fuel
  induction fuel with
  | zero =>
    intro attempt i h
    exfalso
    cases hop : op attempt <;> simp [retryGo, hop] at h
  | succ fu ih =>
    intro attempt i h
    cases hop : op attempt with
    | ok v =>
      exfalso
      rw [retryGo_ok op cfg rand (fu + 1) attempt v hop] at h
      simp at h
    | error e =>
      by_cases hre : shouldRetry e
      · rw [retryGo_step op cfg rand fu attempt e hop hre] at h
        have hget := retryGo_step op cfg rand fu attempt e hop hre
        cases i with
        | zero =>
          simp only [List.length_cons] at h
          simp [List.get, hget]
        | succ j =>
          have h2 : j < (retryGo op cfg rand (attempt + 1) fu).2.2.length := by
            simpa using h
          have hind := ih (attempt + 1) j h2
          have harith : attempt + 1 + j = attempt + (j + 1) := by omega
          rw [harith] at hind
          simp [hget, List.get]
          simpa using hind
      · exfalso
        rw [retryGo_stop op cfg rand (fu + 1) attempt e hop (by simpa using hre)] at h
        simp at h

/-- On the final permitted attempt the loop breaks and re-raises whatever
error that attempt produced. -/
theorem retryGo_last (op : Nat → Except PyExc α) (cfg : RetryConfig) (rand : Nat → ℚ)
    (attempt : Nat) (e : PyExc) (h : op attempt = .error e) :
    retryGo op cfg rand attempt 0 = (.error e, 1, []) := by
  simp [retryGo, h]

/-- An operation that always fails with a network error; used to exercise the
retry loop on concrete inputs. -/
def opAlwaysNetworkError : Nat → Except PyExc Unit :=
  fun _ => .error (.networkError "x" none none)

/-- An operation that fails once with a network error and then succeeds. -/
def opSucceedsSecond : Nat → Except PyExc Nat :=
  fun i => if i = 1 then .ok 37 else .error (.networkError "boom" none none)

/-- The Python str() rendering of an exception: for the taxonomy classes this
is the message passed to the Exception constructor; for other exceptions it
is their carried string rendering. -/
def excStr : PyExc → String
  | .networkError m _ _ => m
  | .authenticationError m _ _ => m
  | .ghostApiError m _ _ _ => m
  | .validationError m _ _ => m
  | .fileUploadError m _ _ => m
  | .mcpProtocolError m _ _ => m
  | .otherExc _ m => m

/-- Value of a single hexadecimal digit, upper or lower case, as accepted by
the Python bytes.fromhex decoder. -/
def hexVal (c : Char) : Option Nat :=
  if '0' ≤ c ∧ c ≤ '9' then some (c.toNat - '0'.toNat)
  else if 'a' ≤ c ∧ c ≤ 'f' then some (c.toNat - 'a'.toNat + 10)
  else if 'A' ≤ c ∧ c ≤ 'F' then some (c.toNat - 'A'.toNat + 10)
  else none

/-- Embedding of bytes.fromhex on a character list: two hex digits per byte,
failing (a Python ValueError) on a stray character or an odd digit count. -/
def bytesFromHex : List Char → Option (List Nat)
  | [] => some []
  | [_] => none
  | c1 :: c2 :: rest =>
    match hexVal c1, hexVal c2, bytesFromHex rest with
    | some h1, some h2, some bs => some ((h1 * 16 + h2) :: bs)
    | _, _, _ => none

/-- Characters of a key before its first colon; together with
`keyPairPost` this embeds the Python api_key.split with a split count
of 1. -/
def keyPairPre (key : String) : List Char :=
  key.data.takeWhile (fun c => !(c == ':'))

/-- Characters of a key after its first colon (keeping any further
colons), the second component of the Python split with count 1. -/
def keyPairPost (key : String) : List Char :=
  (key.data.dropWhile (fun c => !(c == ':'))).drop 1

/-- The characters of the literal "0123456789abcdef" that
validate_key_format tests membership in. -/
def hexDigitChars : List Char :=
  ['0','1','2','3','4','5','6','7','8','9'] ++ ['a','b','c','d','e','f']

/-- The check applied by validate_key_format to each character of a
segment: the Python code lowercases the segment and tests membership in
"0123456789abcdef", so an upper-case hex digit also passes. -/
def isHexCI (c : Char) : Bool :=
  hexDigitChars.contains c.toLower

/-- A lowercase hexadecimal digit, the character class [0-9a-f] used by the
spec for well-formed Admin key pairs. -/
def isLowerHex (c : Char) : Bool :=
  hexDigitChars.contains c

/-- The symbolic result of the PyJWT jwt.encode call made by
_generate_jwt_token: the unprotected header fields, the payload claims and
the HMAC-SHA256 signing key (the raw bytes decoded from the hex secret).
The library call itself is external to the repository and is modelled as
this record of its inputs; two tokens with different records are different
token strings. -/
structure JWT where
  alg : String
  typ : String
  kid : String
  iat : ℤ
  exp : ℤ
  aud : String
  signingKey : List Nat
deriving DecidableEq, Repr

/-- The except clause of _generate_jwt_token (auth/admin_auth.py lines
94-99): any exception raised inside the try block is replaced by an
AuthenticationError whose message embeds the original rendering. -/
def wrapJwtFailure (e : PyExc) (requestId : Option String) : PyExc :=
  .authenticationError ("Failed to generate JWT token: " ++ excStr e)
    (some "JWT token generation failed") requestId

/-- Embedding of AdminAuth._generate_jwt_token (auth/admin_auth.py lines
58-99) for the key pair string held by the instance, at Unix time `now`:
reject a key without the colon separator, split on the first colon, decode
the secret from hex, and mint a token with issued-at floor(now), expiry
floor(now) + 300, audience "/admin/" and the key identifier in the header;
every failure inside the try block is wrapped into an AuthenticationError. -/
def generateJwtToken (apiKey : String) (requestId : Option String) (now : ℚ) :
    Except PyExc JWT :=
  if apiKey.data.contains ':' then
    match bytesFromHex (keyPairPost apiKey) with
    | none =>
      .error (wrapJwtFailure
        (.otherExc "ValueError" "non-hexadecimal number found in fromhex() arg") requestId)
    | some bs =>
      .ok { alg := "HS256", typ := "JWT", kid := ⟨keyPairPre apiKey⟩,
            iat := ⌊now⌋, exp := ⌊now⌋ + 300, aud := "/admin/", signingKey := bs }
  else
    .error (wrapJwtFailure
      (.authenticationError "Invalid Admin API key format"
        (some "Admin API key must be in id:secret format") requestId) requestId)

/-- Mutable state of an AdminAuth instance: the configured key pair (None or
the empty string are both unconfigured) and the token cache. -/
structure AdminAuthState where
  api_key : Option String
  cached_token : Option JWT
  token_expires_at : Option ℚ
deriving DecidableEq

/-- Python truthiness of the optional api_key string. -/
def apiKeyTruthy : Option String → Bool
  | none => false
  | some s => !s.data.isEmpty

/-- Embedding of AdminAuth._get_jwt_token (auth/admin_auth.py lines 33-56):
fail if no key is configured; reuse the cached token while the current time
is strictly below the cached expiry minus the 30 second safety margin;
otherwise mint a new token and cache it with expiry now + 5 minutes. -/
def getJwtToken (s : AdminAuthState) (requestId : Option String) (now : ℚ) :
    Except PyExc (JWT × AdminAuthState) :=
  match s.api_key with
  | none =>
    .error (.authenticationError "Admin API key not configured"
      (some "Admin API requires an API key for JWT generation") requestId)
  | some key =>
    if key.data.isEmpty then
      .error (.authenticationError "Admin API key not configured"
        (some "Admin API requires an API key for JWT generation") requestId)
    else
      match s.cached_token, s.token_expires_at with
      | some tok, some expiresAt =>
        if now < expiresAt - 30 then .ok (tok, s)
        else
          match generateJwtToken key requestId now with
          | .error e => .error e
          | .ok tok2 =>
            .ok (tok2, { s with cached_token := some tok2,
                                token_expires_at := some (now + 300) })
      | _, _ =>
        match generateJwtToken key requestId now with
        | .error e => .error e
        | .ok tok2 =>
          .ok (tok2, { s with cached_token := some tok2,
                              token_expires_at := some (now + 300) })

/-- Embedding of AdminAuth.get_auth_headers (auth/admin_auth.py lines 28-31):
an Authorization header carrying the Ghost scheme and the JWT. -/
def getAuthHeaders (s : AdminAuthState) (requestId : Option String) (now : ℚ) :
    Except PyExc ((String × String × JWT) × AdminAuthState) :=
  match getJwtToken s requestId now with
  | .error e => .error e
  | .ok (tok, s2) => .ok (("Authorization", "Ghost ", tok), s2)

/-- Embedding of AdminAuth.is_configured (auth/admin_auth.py lines 101-103):
bool(api_key and ":" in api_key). -/
def adminIsConfigured (apiKey : Option String) : Bool :=
  match apiKey with
  | none => false
  | some key => !key.data.isEmpty && key.data.contains ':'

/-- Embedding of AdminAuth.validate_key_format (auth/admin_auth.py lines
105-128): the key must be present, contain a colon, split into a 24
character segment and a 64 character segment each of whose characters is a
hex digit after lowercasing.  The surrounding try/except never fires (no
statement in the body raises once the colon test has passed). -/
def validateKeyFormat (apiKey : Option String) : Bool :=
  match apiKey with
  | none => false
  | some key =>
    if key.data.isEmpty then false
    else if !key.data.contains ':' then false
    else if (keyPairPre key).length != 24 || !((keyPairPre key).all isHexCI) then false
    else if (keyPairPost key).length != 64 || !((keyPairPost key).all isHexCI) then false
    else true

/-- Formalisation of the claim text for C6, following the words of the spec
rather than the code: exactly one separator, identifier exactly 24
lowercase-hex characters, secret exactly 64 lowercase-hex characters. -/
def specKeyPairWellFormed (key : String) : Bool :=
  key.data.count ':' == 1 &&
  (keyPairPre key).length == 24 && (keyPairPre key).all isLowerHex &&
  (keyPairPost key).length == 64 && (keyPairPost key).all isLowerHex

/-- takeWhile runs over a block of satisfying elements and stops at the
first failing one. -/
theorem takeWhile_append_stop (p : α → Bool) (l1 : List α) (a : α) (l2 : List α)
    (h : ∀ c ∈ l1, p c = true) (ha : p a = false) :
    (l1 ++ a :: l2).takeWhile p = l1 := by
  induction l1 with
  | nil => simp [List.takeWhile, ha]
  | cons x xs ih =>
    have hx : p x = true := h x (by simp)
    simp only [List.cons_append, List.takeWhile, hx]
    congr 1
    exact ih (fun c hc => h c (by simp [hc]))

/-- dropWhile runs over a block of satisfying elements and stops at the
first failing one. -/
theorem dropWhile_append_stop (p : α → Bool) (l1 : List α) (a : α) (l2 : List α)
    (h : ∀ c ∈ l1, p c = true) (ha : p a = false) :
    (l1 ++ a :: l2).dropWhile p = a :: l2 := by
  induction l1 with
  | nil => simp [List.dropWhile, ha]
  | cons x xs ih =>
    have hx : p x = true := h x (by simp)
    simp only [List.cons_append, List.dropWhile, hx]
    exact ih (fun c hc => h c (by simp [hc]))

/-- A list containing an element decomposes at the first occurrence of that
element into the take/drop pair used to embed the Python one-shot split. -/
theorem split_at_first (a : Char) :
    ∀ (l : List Char), a ∈ l →
      l = l.takeWhile (fun c => !(c == a)) ++ a :: (l.dropWhile (fun c => !(c == a))).drop 1 := by
  intro l
  induction l with
  | nil => intro h; simp at h
  | cons x xs ih =>
    intro h
    by_cases hx : x = a
    · subst hx
      simp [List.takeWhile, List.dropWhile]
    · have hmem : a ∈ xs := by
        rcases List.mem_cons.mp h with h2 | h2
        · exact absurd h2.symm hx
        · exact h2
      have hpx : (!(x == a)) = true := by simp [hx]
      simp only [List.takeWhile, List.dropWhile, hpx, cond_true, List.cons_append]
      congr 1
      exact ih hmem

/-- The key id segment of a concatenated pair id ++ ":" ++ secret is exactly
the id, provided the id carries no colon. -/
theorem keyPairPre_append (id secret : String) (hid : ∀ c ∈ id.data, (c == ':') = false) :
    keyPairPre (id ++ ":" ++ secret) = id.data := by
  unfold keyPairPre
  have hdata : (id ++ ":" ++ secret).data = id.data ++ ':' :: secret.data := by
    simp [String.data_append]
  rw [hdata]
  exact takeWhile_append_stop _ id.data ':' secret.data
    (fun c hc => by simp [hid c hc]) (by simp)

/-- The secret segment of a concatenated pair id ++ ":" ++ secret is exactly
the secret, provided the id carries no colon. -/
theorem keyPairPost_append (id secret : String) (hid : ∀ c ∈ id.data, (c == ':') = false) :
    keyPairPost (id ++ ":" ++ secret) = secret.data := by
  unfold keyPairPost
  have hdata : (id ++ ":" ++ secret).data = id.data ++ ':' :: secret.data := by
    simp [String.data_append]
  rw [hdata]
  rw [dropWhile_append_stop _ id.data ':' secret.data
    (fun c hc => by simp [hid c hc]) (by simp)]
  simp

/-- Lowercase hex digits have a hex value, hence bytes.fromhex accepts
them. -/
theorem isLowerHex_hexVal (c : Char) (h : isLowerHex c = true) : (hexVal c).isSome := by
  have hmem : c ∈ hexDigitChars := by
    simpa [isLowerHex, List.contains] using h
  have hall : hexDigitChars.all (fun c => (hexVal c).isSome) = true := by decide
  exact List.all_eq_true.mp hall c hmem

/-- A list of hex digits of even length decodes successfully. -/
theorem bytesFromHex_of_hex :
    ∀ (l : List Char), (∀ c ∈ l, (hexVal c).isSome) → l.length % 2 = 0 →
      ∃ bs, bytesFromHex l = some bs := by
  intro l
  induction l using bytesFromHex.induct with
  | case1 => intro _ _; exact ⟨[], rfl⟩
  | case2 c => intro _ he; simp only [List.length_singleton] at he; omega
  | case3 c1 c2 rest h1 h2 bs hbs hs2 hs1 ih =>
    intro _ _
    exact ⟨(h1 * 16 + h2) :: bs, by simp [bytesFromHex, hs1, hs2, hbs]⟩
  | case4 c1 c2 rest hfail ih =>
    intro h he
    obtain ⟨h1, hs1⟩ := Option.isSome_iff_exists.mp (h c1 (by simp))
    obtain ⟨h2, hs2⟩ := Option.isSome_iff_exists.mp (h c2 (by simp))
    obtain ⟨bs, hbs⟩ := ih (fun c hc => h c (by simp [hc]))
      (by simp only [List.length_cons] at he; omega)
    exact (hfail h1 h2 bs hs1 hs2 hbs).elim


/-- Successful shape of minting: a key with a colon whose secret segment
decodes yields the token record. -/
theorem generateJwtToken_ok_form (key : String) (rid : Option String) (t : ℚ)
    (hc : key.data.contains ':' = true) (bs : List Nat)
    (hb : bytesFromHex (keyPairPost key) = some bs) :
    generateJwtToken key rid t =
      .ok { alg := "HS256", typ := "JWT", kid := ⟨keyPairPre key⟩, iat := ⌊t⌋,
            exp := ⌊t⌋ + 300, aud := "/admin/", signingKey := bs } := by
  unfold generateJwtToken
  have hmem : (':' : Char) ∈ key.data := by simpa [List.contains] using hc
  simp [hmem, hb]

/-- Inversion of successful minting. -/
theorem generateJwtToken_ok_inv (key : String) (rid : Option String) (t : ℚ) (tok : JWT)
    (h : generateJwtToken key rid t = .ok tok) :
    key.data.contains ':' = true ∧
      ∃ bs, bytesFromHex (keyPairPost key) = some bs ∧
        tok = { alg := "HS256", typ := "JWT", kid := ⟨keyPairPre key⟩, iat := ⌊t⌋,
                exp := ⌊t⌋ + 300, aud := "/admin/", signingKey := bs } := by
  unfold generateJwtToken at h
  cases hc : key.data.contains ':' with
  | false => rw [hc] at h; exact absurd h (by simp)
  | true =>
    rw [hc] at h
    cases hb : bytesFromHex (keyPairPost key) with
    | none => rw [hb] at h; simp at h
    | some bs =>
      rw [hb] at h
      simp at h
      exact ⟨rfl, bs, rfl, h.symm⟩

/-- Minting only inspects the key: success at one time gives success at any
other time, with the clock fields shifted. -/
theorem generateJwtToken_shift (key : String) (rid : Option String) (t : ℚ) (tok : JWT)
    (h : generateJwtToken key rid t = .ok tok) (t2 : ℚ) :
    generateJwtToken key rid t2 = .ok { tok with iat := ⌊t2⌋, exp := ⌊t2⌋ + 300 } := by
  obtain ⟨hc, bs, hb, htok⟩ := generateJwtToken_ok_inv key rid t tok h
  rw [generateJwtToken_ok_form key rid t2 hc bs hb, htok]

/-- A minted token carries issued-at floor(t). -/
theorem generateJwtToken_iat (key : String) (rid : Option String) (t : ℚ) (tok : JWT)
    (h : generateJwtToken key rid t = .ok tok) : tok.iat = ⌊t⌋ := by
  obtain ⟨hc, bs, hb, htok⟩ := generateJwtToken_ok_inv key rid t tok h
  rw [htok]

/-- Every failure of minting is an AuthenticationError (the except clause of
the source wraps anything raised in the try body). -/
theorem generateJwtToken_error_auth (key : String) (rid : Option String) (t : ℚ)
    (e : PyExc) (h : generateJwtToken key rid t = .error e) :
    ∃ m c r, e = .authenticationError m c r := by
  unfold generateJwtToken at h
  cases hc : key.data.contains ':' with
  | false =>
    rw [hc] at h
    simp [wrapJwtFailure] at h
    exact ⟨_, _, _, h.symm⟩
  | true =>
    rw [hc] at h
    cases hb : bytesFromHex (keyPairPost key) with
    | none =>
      rw [hb] at h
      simp [wrapJwtFailure] at h
      exact ⟨_, _, _, h.symm⟩
    | some bs => rw [hb] at h; exact absurd h (by simp)

/-- Cache-hit path of _get_jwt_token: before the safety margin the cached
token is returned and the state is untouched. -/
theorem getJwtToken_hit (s : AdminAuthState) (rid : Option String) (now : ℚ)
    (key : String) (tok : JWT) (expAt : ℚ)
    (hk : s.api_key = some key) (hne : key.data.isEmpty = false)
    (hct : s.cached_token = some tok) (hexp : s.token_expires_at = some expAt)
    (hlt : now < expAt - 30) :
    getJwtToken s rid now = .ok (tok, s) := by
  unfold getJwtToken
  rw [hk]
  simp [hne, hct, hexp, hlt]

/-- Cache-miss path (no cached token): the fresh mint is returned and cached
with expiry now + 300. -/
theorem getJwtToken_cache_none_ok (s : AdminAuthState) (rid : Option String) (now : ℚ)
    (key : String) (tok2 : JWT)
    (hk : s.api_key = some key) (hne : key.data.isEmpty = false)
    (hct : s.cached_token = none)
    (hg : generateJwtToken key rid now = .ok tok2) :
    getJwtToken s rid now =
      .ok (tok2, { s with cached_token := some tok2,
                          token_expires_at := some (now + 300) }) := by
  unfold getJwtToken
  rw [hk]
  cases hexp : s.token_expires_at <;> simp [hne, hct, hexp, hg]

/-- Expired-cache path: past the safety margin the fresh mint is returned
and cached with expiry now + 300. -/
theorem getJwtToken_expired_ok (s : AdminAuthState) (rid : Option String) (now : ℚ)
    (key : String) (tok : JWT) (expAt : ℚ) (tok2 : JWT)
    (hk : s.api_key = some key) (hne : key.data.isEmpty = false)
    (hct : s.cached_token = some tok) (hexp : s.token_expires_at = some expAt)
    (hge : ¬ now < expAt - 30)
    (hg : generateJwtToken key rid now = .ok tok2) :
    getJwtToken s rid now =
      .ok (tok2, { s with cached_token := some tok2,
                          token_expires_at := some (now + 300) }) := by
  unfold getJwtToken
  rw [hk]
  simp [hne, hct, hexp, hge, hg]

/-- Expired-cache path with a failing mint: the failure propagates. -/
theorem getJwtToken_expired_err (s : AdminAuthState) (rid : Option String) (now : ℚ)
    (key : String) (tok : JWT) (expAt : ℚ) (e : PyExc)
    (hk : s.api_key = some key) (hne : key.data.isEmpty = false)
    (hct : s.cached_token = some tok) (hexp : s.token_expires_at = some expAt)
    (hge : ¬ now < expAt - 30)
    (hg : generateJwtToken key rid now = .error e) :
    getJwtToken s rid now = .error e := by
  unfold getJwtToken
  rw [hk]
  simp [hne, hct, hexp, hge, hg]

/-- Inversion of a successful _get_jwt_token call: the key is configured and
the call either hit a live cache (state untouched) or minted and cached a
fresh token with expiry now + 300. -/
theorem getJwtToken_ok_inv (s : AdminAuthState) (rid : Option String) (now : ℚ)
    (tok2 : JWT) (s2 : AdminAuthState)
    (h : getJwtToken s rid now = .ok (tok2, s2)) :
    ∃ key, s.api_key = some key ∧ key.data.isEmpty = false ∧
      ((∃ expAt, s.cached_token = some tok2 ∧ s.token_expires_at = some expAt ∧
          now < expAt - 30 ∧ s2 = s) ∨
       (generateJwtToken key rid now = .ok tok2 ∧
        s2 = { s with cached_token := some tok2,
                      token_expires_at := some (now + 300) })) := by
  unfold getJwtToken at h
  cases hk : s.api_key with
  | none => rw [hk] at h; exact absurd h (by simp)
  | some key =>
    rw [hk] at h
    dsimp only at h
    cases hne : key.data.isEmpty with
    | true => rw [hne] at h; exact absurd h (by simp)
    | false =>
      rw [hne] at h
      simp only [Bool.false_eq_true, if_false] at h
      refine ⟨key, rfl, hne, ?_⟩
      cases hct : s.cached_token with
      | some tok =>
        cases hexp : s.token_expires_at with
        | some expAt =>
          rw [hct, hexp] at h
          by_cases hlt : now < expAt - 30
          · simp [hlt] at h
            exact Or.inl ⟨expAt, by rw [h.1], rfl, hlt, h.2.symm⟩
          · simp [hlt] at h
            cases hg : generateJwtToken key rid now with
            | error e => rw [hg] at h; exact absurd h (by simp)
            | ok tok3 =>
              rw [hg] at h
              simp at h
              exact Or.inr ⟨by rw [h.1], by rw [← h.2, h.1]⟩
        | none =>
          rw [hct, hexp] at h
          dsimp only at h
          cases hg : generateJwtToken key rid now with
          | error e => rw [hg] at h; exact absurd h (by simp)
          | ok tok3 =>
            rw [hg] at h
            simp at h
            exact Or.inr ⟨by rw [h.1], by rw [← h.2, h.1]⟩
      | none =>
        rw [hct] at h
        cases hexp : s.token_expires_at <;> rw [hexp] at h <;> dsimp only at h
        all_goals
          cases hg : generateJwtToken key rid now with
          | error e => rw [hg] at h; exact absurd h (by simp)
          | ok tok3 =>
            rw [hg] at h
            simp at h
            exact Or.inr ⟨by rw [h.1], by rw [← h.2, h.1]⟩

/-- Inversion of a failing _get_jwt_token call: the error is always an
AuthenticationError. -/
theorem getJwtToken_error_inv (s : AdminAuthState) (rid : Option String) (now : ℚ)
    (e : PyExc) (h : getJwtToken s rid now = .error e) :
    ∃ m c r, e = .authenticationError m c r := by
  unfold getJwtToken at h
  cases hk : s.api_key with
  | none =>
    rw [hk] at h
    simp at h
    exact ⟨_, _, _, h.symm⟩
  | some key =>
    rw [hk] at h
    dsimp only at h
    cases hne : key.data.isEmpty with
    | true =>
      rw [hne] at h
      simp at h
      exact ⟨_, _, _, h.symm⟩
    | false =>
      rw [hne] at h
      simp only [Bool.false_eq_true, if_false] at h
      cases hct : s.cached_token with
      | some tok =>
        cases hexp : s.token_expires_at with
        | some expAt =>
          rw [hct, hexp] at h
          by_cases hlt : now < expAt - 30
          · simp [hlt] at h
          · simp [hlt] at h
            cases hg : generateJwtToken key rid now with
            | error e2 =>
              rw [hg] at h
              simp at h
              rw [h] at hg
              exact generateJwtToken_error_auth key rid now e hg
            | ok tok3 => rw [hg] at h; exact absurd h (by simp)
        | none =>
          rw [hct, hexp] at h
          dsimp only at h
          cases hg : generateJwtToken key rid now with
          | error e2 =>
            rw [hg] at h
            simp at h
            rw [h] at hg
            exact generateJwtToken_error_auth key rid now e hg
          | ok tok3 => rw [hg] at h; exact absurd h (by simp)
      | none =>
        rw [hct] at h
        cases hexp : s.token_expires_at <;> rw [hexp] at h <;> dsimp only at h
        all_goals
          cases hg : generateJwtToken key rid now with
          | error e2 =>
            rw [hg] at h
            simp at h
            rw [h] at hg
            exact generateJwtToken_error_auth key rid now e hg
          | ok tok3 => rw [hg] at h; exact absurd h (by simp)

/-- Embedding of the GhostError pydantic model (types/ghost.py lines
236-246): the fields of one entry of an upstream error body. -/
structure GhostError where
  id : String
  message : String
  type : String
  context : Option String := none
  details : Option String := none
  property : Option String := none
  help : Option String := none
  code : Option String := none
  ghostErrorCode : Option String := none
deriving DecidableEq, Repr

/-- Embedding of the GhostErrorResponse pydantic model (types/ghost.py lines
249-251). -/
structure GhostErrorResponse where
  errors : List GhostError
deriving DecidableEq, Repr

/-- Embedding of GhostClient._handle_response (client.py lines 154-202).
The two fallible parsing steps are modelled by optional inputs: `jsonData`
is some rendering of the body when response.json() succeeds (used by the
status < 400 branch), and `errorBody` is some error-response record when the
body both parses as JSON and validates as the expected errors shape (used by
the status >= 400 branch; any failure of either step lands in the except
clause).  A GhostApiError raised inside the try block is re-raised as is by
the isinstance guard of the except clause. -/
def handleResponse (status_code : Nat) (jsonData : Option String)
    (errorBody : Option GhostErrorResponse) (text : String)
    (requestId : Option String) : Except PyExc String :=
  if status_code < 400 then
    match jsonData with
    | some data => .ok data
    | none =>
      .error (.ghostApiError "Failed to parse response JSON"
        none (some "Invalid JSON response from Ghost API") requestId)
  else
    match errorBody with
    | some errorResponse =>
      let firstError := errorResponse.errors.head?
      let errorMessage := match firstError with
        | some fe => fe.message
        | none => "Unknown Ghost API error"
      let errorCode := match firstError with
        | some fe => fe.code
        | none => none
      .error (.ghostApiError errorMessage errorCode
        (some ("HTTP " ++ toString status_code)) requestId)
    | none =>
      .error (.ghostApiError ("HTTP " ++ toString status_code ++ ": " ++ text)
        none (some "Non-JSON error response") requestId)

/-- A pattern is a prefix of itself followed by anything. -/
theorem charsHavePre_self_append (pat rest : List Char) :
    charsHavePre pat (pat ++ rest) = true := by
  induction pat with
  | nil => simp [charsHavePre]
  | cons p ps ih => simp [charsHavePre, ih]

/-- A prefix occurrence is an occurrence. -/
theorem charsHaveSub_of_pre (pat l : List Char) (h : charsHavePre pat l = true) :
    charsHaveSub pat l = true := by
  cases l with
  | nil =>
    cases pat with
    | nil => rfl
    | cons p ps => exact absurd h (by simp [charsHavePre])
  | cons c cs => simp [charsHaveSub, h]

/-- Occurrences survive extending the text on the left. -/
theorem charsHaveSub_append_left (pat : List Char) :
    ∀ l1 l2, charsHaveSub pat l2 = true → charsHaveSub pat (l1 ++ l2) = true := by
  intro l1
  induction l1 with
  | nil => intro l2 h; simpa using h
  | cons c cs ih =>
    intro l2 h
    simp only [List.cons_append, charsHaveSub, List.append_eq]
    rw [ih l2 h]
    simp

/-- The Python substring test succeeds on the middle piece of a
concatenation. -/
theorem strContains_middle (a b c : String) :
    strContains (a ++ b ++ c) b = true := by
  unfold strContains
  rw [String.data_append, String.data_append]
  rw [List.append_assoc]
  exact charsHaveSub_append_left b.data a.data (b.data ++ c.data)
    (charsHaveSub_of_pre b.data (b.data ++ c.data)
      (charsHavePre_self_append b.data c.data))

/-- A pattern is a prefix of itself. -/
theorem charsHavePre_self (pat : List Char) : charsHavePre pat pat = true := by
  simpa using charsHavePre_self_append pat []

/-- The Python substring test succeeds when the text decomposes around the
pattern. -/
theorem strContains_of_data (s pat : String) (l1 l2 : List Char)
    (h : s.data = l1 ++ pat.data ++ l2) : strContains s pat = true := by
  unfold strContains
  rw [h, List.append_assoc]
  exact charsHaveSub_append_left _ _ _
    (charsHaveSub_of_pre _ _ (charsHavePre_self_append _ _))

/-- The Python substring test succeeds on a trailing piece. -/
theorem strContains_append_right (a b : String) : strContains (a ++ b) b = true := by
  unfold strContains
  rw [String.data_append]
  exact charsHaveSub_append_left b.data a.data b.data
    (charsHaveSub_of_pre b.data b.data (charsHavePre_self b.data))

end GhostMCP

namespace GhostMCP

/-- A Python value stored in a request params dictionary. -/
inductive PyVal where
  | str (s : String)
  | int (n : ℤ)
deriving DecidableEq, Repr

/-- A Python dict of request parameters, as an ordered association list with
distinct semantics supplied by dictUpdate. -/
abbrev ParamsDict := List (String × PyVal)

/-- Embedding of dict.update with a single-entry argument: an existing key's
value is replaced in place (insertion position kept); a new key is
appended. -/
def dictUpdate (d : ParamsDict) (k : String) (v : PyVal) : ParamsDict :=
  if (d.lookup k).isSome then
    d.map (fun p => if p.1 == k then (k, v) else p)
  else
    d ++ [(k, v)]

/-- Does the URL string end with a slash?  Embedding of the Python
endswith("/") check in GhostClient.__init__. -/
def endsWithSlash (u : String) : Bool :=
  match u.data.getLast? with
  | some c => c == '/'
  | none => false

/-- Embedding of the base URL normalization of GhostClient.__init__
(client.py lines 31-36): ensure a trailing slash. -/
def clientBaseUrl (base_url : String) : String :=
  if endsWithSlash base_url then base_url else base_url ++ "/"

/-- Modelled from the stdlib urllib.parse.urljoin for the call shape the
client uses: a relative reference with no scheme and no leading slash is
resolved against the base by dropping everything after the last slash of
the base and appending the reference.  The client always passes a base URL
normalized to end with a slash, for which this simply appends. -/
def urljoin (base rel : String) : String :=
  ⟨(base.data.reverse.dropWhile (fun c => !(c == '/'))).reverse ++ rel.data⟩

/-- Embedding of GhostClient._build_url (client.py lines 67-70). -/
def buildUrl (base_url endpoint api_type : String) : String :=
  urljoin base_url ("ghost/api/" ++ api_type ++ "/" ++ endpoint)

/-- The request keyword arguments assembled by _make_request: method, url,
headers and a reference to the params dictionary passed on to the HTTP
client. -/
structure RequestDescriptor where
  method : String
  url : String
  headers : List (String × String)
  paramsRef : Nat
deriving DecidableEq, Repr

/-- Embedding of the request-assembly part of GhostClient._make_request for
the Content surface (client.py lines 86-118): build the URL, fail if no
Content key is configured, then write the ContentAuth entry key=<value> into
the params dictionary with dict.update — mutating the caller's dictionary in
place when one was supplied, or a fresh empty dictionary otherwise.  Python
object identity is modelled with an explicit heap of dictionaries indexed by
references: `paramsRef` is the caller's reference (none when the caller
passed no dictionary) and `freshRef` is the reference of the dictionary
created by the handler when needed. -/
def makeRequestContent (base_url content_key method endpoint : String)
    (heap : Nat → ParamsDict) (paramsRef : Option Nat) (freshRef : Nat)
    (requestId : Option String) :
    Except PyExc (RequestDescriptor × (Nat → ParamsDict)) :=
  let url := buildUrl base_url endpoint "content"
  if content_key.data.isEmpty then
    .error (.authenticationError "Content API key not configured" none requestId)
  else
    let ref := match paramsRef with
      | none => freshRef
      | some r => r
    let d0 := match paramsRef with
      | none => []
      | some r => heap r
    let heap2 := fun q => if q = ref then dictUpdate d0 "key" (.str content_key) else heap q
    .ok ({ method := method, url := url,
           headers := [("User-Agent", "Ghost-MCP/0.1.0")], paramsRef := ref }, heap2)

/-- Looking up the updated key in the replace branch of dictUpdate. -/
theorem lookup_map_update (d : ParamsDict) (k : String) (v : PyVal) :
    (d.map (fun p => if p.1 == k then (k, v) else p)).lookup k =
      if (d.lookup k).isSome then some v else none := by
  induction d with
  | nil => simp
  | cons p rest ih =>
    obtain ⟨k1, v1⟩ := p
    simp only [List.map_cons]
    cases hbeq : (k1 == k) with
    | true =>
      have hke : k1 = k := by simpa using hbeq
      subst hke
      simp [List.lookup]
    | false =>
      have hne : ¬ k = k1 := fun hcon => by simp [hcon] at hbeq
      have hbeq2 : (k == k1) = false := by simpa using hne
      simp only [hbeq, if_false, List.lookup, hbeq2, ih]

/-- Looking up a fresh key appended by dictUpdate. -/
theorem lookup_append_single (d : ParamsDict) (k : String) (v : PyVal)
    (h : d.lookup k = none) : (d ++ [(k, v)]).lookup k = some v := by
  induction d with
  | nil => simp [List.lookup]
  | cons p rest ih =>
    obtain ⟨k1, v1⟩ := p
    cases hbeq : (k == k1) with
    | true => simp [List.lookup, hbeq] at h
    | false =>
      simp only [List.lookup, hbeq] at h
      simp only [List.cons_append, List.lookup, hbeq]
      exact ih h

/-- dictUpdate writes the requested entry. -/
theorem dictUpdate_lookup_self (d : ParamsDict) (k : String) (v : PyVal) :
    (dictUpdate d k v).lookup k = some v := by
  unfold dictUpdate
  by_cases hs : (d.lookup k).isSome
  · rw [if_pos hs, lookup_map_update, if_pos hs]
  · rw [if_neg hs]
    exact lookup_append_single d k v (Option.not_isSome_iff_eq_none.mp hs)

/-- The replace branch of dictUpdate leaves other keys unchanged. -/
theorem lookup_map_update_other (d : ParamsDict) (k : String) (v : PyVal)
    (k2 : String) (h : k2 ≠ k) :
    (d.map (fun p => if p.1 == k then (k, v) else p)).lookup k2 = d.lookup k2 := by
  induction d with
  | nil => simp
  | cons p rest ih =>
    obtain ⟨k1, v1⟩ := p
    simp only [List.map_cons]
    cases hbeq : (k1 == k) with
    | true =>
      have hke : k1 = k := by simpa using hbeq
      subst hke
      have hbeq2 : (k2 == k1) = false := by simpa using h
      simp only [if_true, List.lookup, hbeq2, ih]
    | false =>
      cases hbeq2 : (k2 == k1) <;>
        simp only [hbeq, if_false, List.lookup, hbeq2, ih]

/-- The append branch of dictUpdate leaves other keys unchanged. -/
theorem lookup_append_single_other (d : ParamsDict) (k : String) (v : PyVal)
    (k2 : String) (h : k2 ≠ k) :
    ((d ++ [(k, v)]).lookup k2) = d.lookup k2 := by
  induction d with
  | nil =>
    have hbeq : (k2 == k) = false := by simpa using h
    simp [List.lookup, hbeq]
  | cons p rest ih =>
    obtain ⟨k1, v1⟩ := p
    cases hbeq : (k2 == k1) <;>
      simp only [List.cons_append, List.lookup, hbeq, List.append_eq, ih]

/-- dictUpdate leaves every other entry unchanged. -/
theorem dictUpdate_lookup_other (d : ParamsDict) (k : String) (v : PyVal)
    (k2 : String) (h : k2 ≠ k) : (dictUpdate d k v).lookup k2 = d.lookup k2 := by
  unfold dictUpdate
  by_cases hs : (d.lookup k).isSome
  · rw [if_pos hs]
    exact lookup_map_update_other d k v k2 h
  · rw [if_neg hs]
    exact lookup_append_single_other d k v k2 h

end GhostMCP

namespace GhostMCP

/-- A key pair whose identifier segment is upper-case hex: accepted by the
code, rejected by the claim text. -/
def c6UpperKey : String := "AAAAAAAAAAAAAAAAAAAAAAAA:aaaaaaaaaaaaaaaaaaaaaaaaaaaaaaaaaaaaaaaaaaaaaaaaaaaaaaaaaaaaaaaa"

/-- A well-formed lowercase key pair. -/
def c6GoodKey : String := "aaaaaaaaaaaaaaaaaaaaaaaa:0000000000000000000000000000000000000000000000000000000000000000"

/-- The validator returns true exactly when the key contains a colon and the
two segments of the first-colon split have the right lengths and pass the
case-insensitive hex test. -/
theorem validateKeyFormat_true_iff (key : String) :
    validateKeyFormat (some key) = true ↔
      (key.data.contains ':' = true ∧ (keyPairPre key).length = 24 ∧
       (keyPairPre key).all isHexCI = true ∧
       (keyPairPost key).length = 64 ∧ (keyPairPost key).all isHexCI = true) := by
  unfold validateKeyFormat
  constructor
  · intro h
    dsimp only at h
    split_ifs at h with h1 h2 h3 h4
    try simp at h
    simp only [Bool.not_eq_true] at h2
    simp only [Bool.or_eq_true, Bool.not_eq_true, bne_iff_ne, not_or] at h3 h4
    push_neg at h3 h4
    refine ⟨by simpa using h2, h3.1, by simpa using h3.2, h4.1, by simpa using h4.2⟩
  · rintro ⟨hc, h1, h2, h3, h4⟩
    have hne : key.data.isEmpty = false := by
      cases hd : key.data with
      | nil => rw [hd] at hc; exact absurd hc (by simp)
      | cons x xs => simp
    dsimp only
    simp [hne, hc, h1, h2, h3, h4]
    simpa [List.contains] using hc


/-- A lowercase hex digit is not a colon. -/
theorem isLowerHex_ne_colon (c : Char) (h : isLowerHex c = true) : (c == ':') = false := by
  cases hcc : (c == ':') with
  | false => rfl
  | true =>
    have : c = ':' := by simpa using hcc
    rw [this] at h
    exact absurd h (by decide)

/-- The character data of a concatenated key pair. -/
theorem keyPair_data (id secret : String) :
    (id ++ ":" ++ secret).data = id.data ++ ':' :: secret.data := by
  simp [String.data_append]

/-- The decomposition of a key at its first colon. -/
theorem key_split (key : String) (h : (':' : Char) ∈ key.data) :
    key.data = keyPairPre key ++ ':' :: keyPairPost key := by
  unfold keyPairPre keyPairPost
  exact split_at_first ':' key.data h

/-- When both segments pass the hex test, the key contains a colon exactly
when it contains exactly one colon: the hex test rules out a colon inside
either segment. -/
theorem contains_count_one (key : String)
    (hpre : (keyPairPre key).all isHexCI = true)
    (hpost : (keyPairPost key).all isHexCI = true) :
    key.data.contains ':' = true ↔ key.data.count ':' = 1 := by
  constructor
  · intro h
    have hmem : (':' : Char) ∈ key.data := by simpa [List.contains] using h
    have hpre0 : (keyPairPre key).count ':' = 0 := by
      rw [List.count_eq_zero]
      intro hmem2
      exact absurd (List.all_eq_true.mp hpre _ hmem2) (by decide)
    have hpost0 : (keyPairPost key).count ':' = 0 := by
      rw [List.count_eq_zero]
      intro hmem2
      exact absurd (List.all_eq_true.mp hpost _ hmem2) (by decide)
    rw [key_split key hmem, List.count_append, List.count_cons_self, hpre0, hpost0]
  · intro h
    have hmem : (':' : Char) ∈ key.data := by
      by_contra hcon
      rw [(List.count_eq_zero).mpr hcon] at h
      exact absurd h (by decide)
    simpa [List.contains] using hmem

end GhostMCP

namespace GhostMCP

/-- C1: the retry classifier returns true for every Network-category error,
false for every Authentication-category and every Validation-category error,
true for any exception of an unrecognized type, and for a GhostApiError whose
context has the canonical shape "HTTP " followed by a three-character status
it returns true exactly when the status starts with the digit 5 (an HTTP 5xx
status) or is 429; in particular context "HTTP 404" yields false and contexts
"HTTP 500" and "HTTP 429" yield true. -/
theorem C1_retry_classifier :
    (∀ m c r, shouldRetry (.networkError m c r) = true) ∧
    (∀ m c r, shouldRetry (.authenticationError m c r) = false) ∧
    (∀ m c r, shouldRetry (.validationError m c r) = false) ∧
    (∀ t m, shouldRetry (.otherExc t m) = true) ∧
    (∀ m cd r (x y z : Char),
        shouldRetry (.ghostApiError m cd (some ⟨['H','T','T','P',' ', x, y, z]⟩) r) = true
          ↔ (x = '5' ∨ (x = '4' ∧ y = '2' ∧ z = '9'))) ∧
    shouldRetry (.ghostApiError "m" none (some "HTTP 404") none) = false ∧
    shouldRetry (.ghostApiError "m" none (some "HTTP 500") none) = true ∧
    shouldRetry (.ghostApiError "m" none (some "HTTP 429") none) = true := by
  refine ⟨fun m c r => rfl, fun m c r => rfl, fun m c r => rfl, fun t m => rfl, ?_,
    by decide, by decide, by decide⟩
  intro m cd r x y z
  simp only [shouldRetry, strContains]
  simp [charsHaveSub, charsHavePre]
  constructor
  · rintro (h5 | ⟨h4, h2, h9⟩)
    · exact Or.inl h5.symm
    · exact Or.inr ⟨h4.symm, h2.symm, h9.symm⟩
  · rintro (h5 | ⟨h4, h2, h9⟩)
    · exact Or.inl h5.symm
    · exact Or.inr ⟨h4.symm, h2.symm, h9.symm⟩

/-- C3: with_retry invokes the operation at most max_retries + 1 times; a
success on the first attempt returns that result with exactly one invocation;
more generally, after k retryable failures a success on attempt k returns
that result with exactly k + 1 invocations and a non-retryable error on
attempt k propagates with exactly k + 1 invocations; and when every permitted
attempt fails with a retryable error the operation is invoked exactly
max_retries + 1 times and the error raised by the final attempt itself is
what propagates. -/
theorem C3_with_retry_attempt_counts (op : Nat → Except PyExc α) (cfg : RetryConfig)
    (rand : Nat → ℚ) :
    ((with_retry op cfg rand).2.1 ≤ cfg.max_retries + 1) ∧
    (∀ v, op 0 = .ok v → with_retry op cfg rand = (.ok v, 1, [])) ∧
    (∀ k v, k ≤ cfg.max_retries →
        (∀ i, i < k → ∃ e, op i = .error e ∧ shouldRetry e = true) →
        op k = .ok v →
        (with_retry op cfg rand).1 = .ok v ∧ (with_retry op cfg rand).2.1 = k + 1) ∧
    (∀ k e, k ≤ cfg.max_retries →
        (∀ i, i < k → ∃ e2, op i = .error e2 ∧ shouldRetry e2 = true) →
        op k = .error e → shouldRetry e = false →
        (with_retry op cfg rand).1 = .error e ∧ (with_retry op cfg rand).2.1 = k + 1) ∧
    (∀ e, (∀ i, i ≤ cfg.max_retries → ∃ e2, op i = .error e2 ∧ shouldRetry e2 = true) →
        op cfg.max_retries = .error e →
        (with_retry op cfg rand).1 = .error e ∧
        (with_retry op cfg rand).2.1 = cfg.max_retries + 1) := by
  refine ⟨retryGo_count_le op cfg rand cfg.max_retries 0, ?_, ?_, ?_, ?_⟩
  · intro v h
    exact retryGo_ok op cfg rand cfg.max_retries 0 v h
  · intro k v hk hfail hok
    have hskip := retryGo_skip op cfg rand k cfg.max_retries 0 hk
      (fun i hi => by simpa using hfail i hi)
    have hok0 : op (0 + k) = .ok v := by simpa using hok
    have htail := retryGo_ok op cfg rand (cfg.max_retries - k) (0 + k) v hok0
    unfold with_retry
    rw [htail] at hskip
    exact ⟨hskip.1, by rw [hskip.2]; dsimp only; omega⟩
  · intro k e hk hfail herr hnr
    have hskip := retryGo_skip op cfg rand k cfg.max_retries 0 hk
      (fun i hi => by simpa using hfail i hi)
    have herr0 : op (0 + k) = .error e := by simpa using herr
    have htail := retryGo_stop op cfg rand (cfg.max_retries - k) (0 + k) e herr0 hnr
    unfold with_retry
    rw [htail] at hskip
    exact ⟨hskip.1, by rw [hskip.2]; dsimp only; omega⟩
  · intro e hfail herr
    have hskip := retryGo_skip op cfg rand cfg.max_retries cfg.max_retries 0 le_rfl
      (fun i hi => by simpa using hfail i (Nat.le_of_lt hi))
    have herr0 : op (0 + cfg.max_retries) = .error e := by simpa using herr
    have htail := retryGo_last op cfg rand (0 + cfg.max_retries) e herr0
    unfold with_retry
    rw [Nat.sub_self, htail] at hskip
    exact ⟨hskip.1, by rw [hskip.2]; dsimp only; omega⟩

/-- Witness for C3: with the default config (max_retries = 3) and an
operation that fails retryably once and then succeeds, with_retry returns the
success and invokes the operation exactly twice. -/
theorem C3_witness :
    (with_retry opSucceedsSecond {} (fun _ => 0)).1 = .ok 37 ∧
    (with_retry opSucceedsSecond {} (fun _ => 0)).2.1 = 1 + 1 :=
  (C3_with_retry_attempt_counts opSucceedsSecond {} (fun _ => 0)).2.2.1 1 37
    (by decide)
    (fun i hi => ⟨.networkError "boom" none none, by
      obtain rfl : i = 0 := by omega
      exact ⟨rfl, rfl⟩⟩)
    rfl

/-- C8: every delay recorded by with_retry before the retry following failed
attempt index i equals min(base_delay * backoff_multiplier ^ i, max_delay)
scaled by a factor f, where f is 1 when jitter is disabled and, when jitter
is enabled and the random draws lie in [0, 1), f = 0.5 + random * 0.5 and
lies in the interval [0.5, 1.0]. -/
theorem C8_backoff_delay_formula (op : Nat → Except PyExc α) (cfg : RetryConfig)
    (rand : Nat → ℚ) (hrand : ∀ k, 0 ≤ rand k ∧ rand k < 1) :
    ∀ (i : Nat) (h : i < (with_retry op cfg rand).2.2.length),
      ∃ f : ℚ,
        (with_retry op cfg rand).2.2.get ⟨i, h⟩ =
          min (cfg.base_delay * cfg.exponential_base ^ i) cfg.max_delay * f ∧
        (cfg.jitter = true → f = 1/2 + rand i * (1/2) ∧ 1/2 ≤ f ∧ f ≤ 1) ∧
        (cfg.jitter = false → f = 1) := by
  intro i h
  have hd := retryGo_delay_get op cfg rand cfg.max_retries 0 i h
  rw [Nat.zero_add] at hd
  unfold jitteredDelay at hd
  have hgoal : (with_retry op cfg rand).2.2.get ⟨i, h⟩ =
      (retryGo op cfg rand 0 cfg.max_retries).2.2.get ⟨i, h⟩ := rfl
  by_cases hj : cfg.jitter
  · refine ⟨1/2 + rand i * (1/2), ?_, ?_, ?_⟩
    · rw [hgoal, hd]
      simp [hj]
    · intro _
      obtain ⟨h0, h1⟩ := hrand i
      refine ⟨rfl, by nlinarith, by nlinarith⟩
    · intro hcon
      rw [hj] at hcon
      exact absurd hcon (by simp)
  · refine ⟨1, ?_, ?_, fun _ => rfl⟩
    · rw [hgoal, hd]
      simp [hj]
    · intro hcon
      rw [hcon] at hj
      exact absurd rfl hj

/-- Witness for C8: with the default config, an always-failing network
operation and zero random draws, the first recorded delay satisfies the
backoff formula at attempt index 0. -/
theorem C8_witness :
    ∃ f : ℚ,
      (with_retry opAlwaysNetworkError {} (fun _ => 0)).2.2.get ⟨0, by decide⟩ =
        min (({} : RetryConfig).base_delay * ({} : RetryConfig).exponential_base ^ 0)
          ({} : RetryConfig).max_delay * f ∧
      (({} : RetryConfig).jitter = true → f = 1/2 + (0 : ℚ) * (1/2) ∧ 1/2 ≤ f ∧ f ≤ 1) ∧
      (({} : RetryConfig).jitter = false → f = 1) :=
  C8_backoff_delay_formula opAlwaysNetworkError {} (fun _ => 0)
    (fun _ => ⟨le_refl 0, by norm_num⟩) 0 (by decide)

/-- C6 counterexample: the claim states the validator returns true only for
lowercase-hex segments, but a key whose identifier segment is 24 upper-case
hex characters is accepted by validate_key_format (the code lowercases each
segment before the membership test) while failing the claimed
characterisation. -/
theorem C6_counterexample :
    validateKeyFormat (some c6UpperKey) = true ∧
      specKeyPairWellFormed c6UpperKey = false := by
  constructor <;> decide

/-- C6 amended: validate_key_format returns true exactly when the key
contains exactly one separator, the identifier segment is exactly 24
characters each a hex digit after lowercasing (case-insensitive hex), and
the secret segment is exactly 64 characters each a hex digit after
lowercasing. -/
theorem C6_validate_key_format_amended (key : String) :
    validateKeyFormat (some key) = true ↔
      (key.data.count ':' = 1 ∧ (keyPairPre key).length = 24 ∧
       (keyPairPre key).all isHexCI = true ∧
       (keyPairPost key).length = 64 ∧ (keyPairPost key).all isHexCI = true) := by
  rw [validateKeyFormat_true_iff]
  constructor
  · rintro ⟨hc, h1, h2, h3, h4⟩
    exact ⟨(contains_count_one key h2 h4).mp hc, h1, h2, h3, h4⟩
  · rintro ⟨hc, h1, h2, h3, h4⟩
    exact ⟨(contains_count_one key h2 h4).mpr hc, h1, h2, h3, h4⟩

/-- Witness for C6: a lowercase well-formed key pair is accepted. -/
theorem C6_witness : validateKeyFormat (some c6GoodKey) = true :=
  (C6_validate_key_format_amended c6GoodKey).mpr (by decide)

/-- C5: for every Admin key pair id:secret with a 24 lowercase-hex identifier
and a 64 lowercase-hex secret, is_configured returns true, and minting at
Unix time t yields a token whose header carries alg HS256 and kid equal to
the identifier, whose payload has audience "/admin/", issued-at floor(t) and
expiry floor(t) + 300 seconds, signed with the secret decoded from hex as
raw bytes. -/
theorem C5_token_minting (id secret : String) (t : ℚ)
    (_hid_len : id.data.length = 24) (hid_hex : ∀ c ∈ id.data, isLowerHex c = true)
    (hsec_len : secret.data.length = 64)
    (hsec_hex : ∀ c ∈ secret.data, isLowerHex c = true) :
    adminIsConfigured (some (id ++ ":" ++ secret)) = true ∧
    ∃ bs, bytesFromHex secret.data = some bs ∧
      generateJwtToken (id ++ ":" ++ secret) none t =
        .ok { alg := "HS256", typ := "JWT", kid := id, iat := ⌊t⌋, exp := ⌊t⌋ + 300,
              aud := "/admin/", signingKey := bs } := by
  have hnc : ∀ c ∈ id.data, (c == ':') = false :=
    fun c hc => isLowerHex_ne_colon c (hid_hex c hc)
  have hdata := keyPair_data id secret
  have hcontains : (id ++ ":" ++ secret).data.contains ':' = true := by
    rw [hdata]
    simp [List.contains]
  have hne : (id ++ ":" ++ secret).data.isEmpty = false := by
    rw [hdata]
    cases id.data <;> simp
  constructor
  · simp [adminIsConfigured, hne, hcontains]
  · obtain ⟨bs, hbs⟩ := bytesFromHex_of_hex secret.data
      (fun c hc => isLowerHex_hexVal c (hsec_hex c hc)) (by simp [hsec_len])
    refine ⟨bs, hbs, ?_⟩
    unfold generateJwtToken
    rw [hcontains]
    rw [keyPairPost_append id secret hnc, hbs, keyPairPre_append id secret hnc]
    simp

/-- Witness for C5: a concrete lowercase key pair and time. -/
theorem C5_witness :
    adminIsConfigured
        (some ("aaaaaaaaaaaaaaaaaaaaaaaa" ++ ":" ++
          "0000000000000000000000000000000000000000000000000000000000000000")) = true ∧
    ∃ bs,
      bytesFromHex
          "0000000000000000000000000000000000000000000000000000000000000000".data =
        some bs ∧
      generateJwtToken
          ("aaaaaaaaaaaaaaaaaaaaaaaa" ++ ":" ++
            "0000000000000000000000000000000000000000000000000000000000000000") none 0 =
        .ok { alg := "HS256", typ := "JWT", kid := "aaaaaaaaaaaaaaaaaaaaaaaa",
              iat := ⌊(0 : ℚ)⌋, exp := ⌊(0 : ℚ)⌋ + 300, aud := "/admin/",
              signingKey := bs } :=
  C5_token_minting "aaaaaaaaaaaaaaaaaaaaaaaa"
    "0000000000000000000000000000000000000000000000000000000000000000" 0
    (by decide) (by decide) (by decide) (by decide)

/-- A fixed JWT value used to populate a concrete token cache. -/
def c4TokW : JWT :=
  { alg := "HS256", typ := "JWT", kid := "k", iat := 0, exp := 300,
    aud := "/admin/", signingKey := [] }

/-- A concrete AdminAuth state with a configured key and a live cache. -/
def c4StateW : AdminAuthState :=
  { api_key := some c6GoodKey, cached_token := some c4TokW,
    token_expires_at := some 300 }

/-- C4: with a configured key and a cached token, a request reuses the cached
token (returning it with the state untouched) exactly when the current time
is strictly before the cached expiry minus the 30 second safety margin;
otherwise a fresh token is minted and cached with expiry reset to now plus 5
minutes; two calls within 4 minutes of each other starting from an empty
cache return the identical token; a call issued strictly after
expires_at - 30 returns a different token; and a handed-out token always
leaves the state with strictly more than 30 seconds of cached validity. -/
theorem C4_token_cache (s : AdminAuthState) (rid : Option String) :
    (∀ key tok expiresAt now, s.api_key = some key → key.data.isEmpty = false →
        s.cached_token = some tok → s.token_expires_at = some expiresAt →
        (getJwtToken s rid now = .ok (tok, s) ↔ now < expiresAt - 30)) ∧
    (∀ key tok expiresAt now tok2, s.api_key = some key → key.data.isEmpty = false →
        s.cached_token = some tok → s.token_expires_at = some expiresAt →
        ¬ now < expiresAt - 30 → generateJwtToken key rid now = .ok tok2 →
        getJwtToken s rid now =
          .ok (tok2, { s with cached_token := some tok2,
                              token_expires_at := some (now + 300) })) ∧
    (∀ t1 t2 tok s1, s.cached_token = none →
        getJwtToken s rid t1 = .ok (tok, s1) → t1 ≤ t2 → t2 ≤ t1 + 240 →
        getJwtToken s1 rid t2 = .ok (tok, s1)) ∧
    (∀ t1 t2 tok s1, s.cached_token = none →
        getJwtToken s rid t1 = .ok (tok, s1) → t1 + 300 - 30 < t2 →
        ∃ tok2 s2, getJwtToken s1 rid t2 = .ok (tok2, s2) ∧ tok2 ≠ tok) ∧
    (∀ now tok2 s2, getJwtToken s rid now = .ok (tok2, s2) →
        ∃ e2, s2.token_expires_at = some e2 ∧ now < e2 - 30) := by
  refine ⟨?_, ?_, ?_, ?_, ?_⟩
  · intro key tok expiresAt now hk hne hct hexp
    constructor
    · intro h
      by_contra hge
      cases hg : generateJwtToken key rid now with
      | error e =>
        rw [getJwtToken_expired_err s rid now key tok expiresAt e hk hne hct hexp hge hg] at h
        exact absurd h (by simp)
      | ok tok2 =>
        rw [getJwtToken_expired_ok s rid now key tok expiresAt tok2 hk hne hct hexp hge hg] at h
        simp at h
        have h2 := congrArg AdminAuthState.token_expires_at h.2
        simp [hexp] at h2
        exact absurd hge (by simp; linarith)
    · intro hlt
      exact getJwtToken_hit s rid now key tok expiresAt hk hne hct hexp hlt
  · intro key tok expiresAt now tok2 hk hne hct hexp hge hg
    exact getJwtToken_expired_ok s rid now key tok expiresAt tok2 hk hne hct hexp hge hg
  · intro t1 t2 tok s1 hct h1 hle hle2
    obtain ⟨key, hk, hne, hOr⟩ := getJwtToken_ok_inv s rid t1 tok s1 h1
    rcases hOr with ⟨expAt, hcontra, _⟩ | ⟨hg, hs1⟩
    · rw [hct] at hcontra; exact absurd hcontra (by simp)
    · subst hs1
      exact getJwtToken_hit _ rid t2 key tok (t1 + 300) hk hne rfl rfl (by linarith)
  · intro t1 t2 tok s1 hct h1 hgt
    obtain ⟨key, hk, hne, hOr⟩ := getJwtToken_ok_inv s rid t1 tok s1 h1
    rcases hOr with ⟨expAt, hcontra, _⟩ | ⟨hg, hs1⟩
    · rw [hct] at hcontra; exact absurd hcontra (by simp)
    · subst hs1
      have hg2 := generateJwtToken_shift key rid t1 tok hg t2
      have hge : ¬ t2 < (t1 + 300) - 30 := by linarith
      refine ⟨{ tok with iat := ⌊t2⌋, exp := ⌊t2⌋ + 300 }, _,
        getJwtToken_expired_ok _ rid t2 key tok (t1 + 300) _ hk hne rfl rfl hge hg2, ?_⟩
      intro hcon
      have hiat : tok.iat = ⌊t1⌋ := generateJwtToken_iat key rid t1 tok hg
      have hiat2 : ({ tok with iat := ⌊t2⌋, exp := ⌊t2⌋ + 300 } : JWT).iat = tok.iat := by
        rw [hcon]
      simp [hiat] at hiat2
      have hfl : ⌊t1⌋ + 270 ≤ ⌊t2⌋ := by
        have hle : t1 + ((270 : ℤ) : ℚ) ≤ t2 := by push_cast; linarith
        calc ⌊t1⌋ + 270 = ⌊t1 + ((270 : ℤ) : ℚ)⌋ := (Int.floor_add_int t1 270).symm
          _ ≤ ⌊t2⌋ := Int.floor_le_floor hle
      omega
  · intro now tok2 s2 h
    obtain ⟨key, hk, hne, hOr⟩ := getJwtToken_ok_inv s rid now tok2 s2 h
    rcases hOr with ⟨expAt, hct2, hexp2, hlt, hs⟩ | ⟨hg, hs⟩
    · subst hs; exact ⟨expAt, hexp2, hlt⟩
    · subst hs; exact ⟨now + 300, rfl, by linarith⟩

/-- Witness for C4: a call before the safety margin reuses the cached
token and leaves the state untouched. -/
theorem C4_witness : getJwtToken c4StateW none 0 = .ok (c4TokW, c4StateW) :=
  ((C4_token_cache c4StateW none).1 c6GoodKey c4TokW 300 0 rfl (by decide)
    rfl rfl).mpr (by norm_num)

/-- C10: every failure of get_auth_headers, and of the underlying token
fetch, is an AuthenticationError: the unconfigured-key check, the missing
separator, a bad hex secret and any other signing failure all raise that
category, and no other exception escapes. -/
theorem C10_auth_errors (s : AdminAuthState) (rid : Option String) (now : ℚ) :
    (∀ e, getJwtToken s rid now = .error e → ∃ m c r, e = .authenticationError m c r) ∧
    (∀ e, getAuthHeaders s rid now = .error e →
        ∃ m c r, e = .authenticationError m c r) := by
  constructor
  · exact fun e h => getJwtToken_error_inv s rid now e h
  · intro e h
    unfold getAuthHeaders at h
    cases hj : getJwtToken s rid now with
    | error e2 =>
      rw [hj] at h
      simp at h
      rw [h] at hj
      exact getJwtToken_error_inv s rid now e hj
    | ok pair =>
      obtain ⟨tok, s2⟩ := pair
      rw [hj] at h
      exact absurd h (by simp)

/-- Witness for C10: an unconfigured instance fails with an
AuthenticationError. -/
theorem C10_witness :
    ∃ e m c r,
      getAuthHeaders { api_key := none, cached_token := none,
                       token_expires_at := none } none 0 = Except.error e ∧
      e = PyExc.authenticationError m c r := by
  obtain ⟨m, c, r, h⟩ :=
    (C10_auth_errors
      { api_key := none, cached_token := none, token_expires_at := none } none 0).2 _ rfl
  exact ⟨_, m, c, r, rfl, h⟩

/-- C2 counterexample: the claim requires every status >= 400 error to carry
the literal status code in its context (and, for a non-parseable status-500
body, the raw response text in its context), but the fallback branch for a
non-parseable body sets the fixed context "Non-JSON error response", which
contains neither "500" nor the raw text. -/
theorem C2_counterexample :
    handleResponse 500 none none "oops" none =
      .error (.ghostApiError ("HTTP " ++ toString 500 ++ ": " ++ "oops")
        none (some "Non-JSON error response") none) ∧
    strContains "Non-JSON error response" "500" = false ∧
    strContains "Non-JSON error response" "oops" = false := by
  refine ⟨rfl, by decide, by decide⟩

/-- C2 amended: for status >= 400, when the body parses as the expected
errors shape the raised UpstreamAPI error carries context "HTTP <status>"
(which contains the literal status code); when it does not, the raised
error's message is "HTTP <status>: <raw text>" — containing the literal
status code and the raw response text — while its context is the fixed
string "Non-JSON error response". -/
theorem C2_handle_response_amended (status : Nat) (hs : 400 ≤ status)
    (jd : Option String) (text : String) (rid : Option String) :
    (∀ er : GhostErrorResponse, ∃ m c,
        handleResponse status jd (some er) text rid =
          .error (.ghostApiError m c (some ("HTTP " ++ toString status)) rid) ∧
        strContains ("HTTP " ++ toString status) (toString status) = true) ∧
    (handleResponse status jd none text rid =
        .error (.ghostApiError ("HTTP " ++ toString status ++ ": " ++ text)
          none (some "Non-JSON error response") rid) ∧
      strContains ("HTTP " ++ toString status ++ ": " ++ text) (toString status) = true ∧
      strContains ("HTTP " ++ toString status ++ ": " ++ text) text = true) := by
  have hge : ¬ status < 400 := by omega
  constructor
  · intro er
    refine ⟨(match er.errors.head? with
        | some fe => fe.message
        | none => "Unknown Ghost API error"),
      (match er.errors.head? with
        | some fe => fe.code
        | none => none), ?_, strContains_append_right "HTTP " (toString status)⟩
    unfold handleResponse
    rw [if_neg hge]
  · refine ⟨?_, ?_, ?_⟩
    · unfold handleResponse
      rw [if_neg hge]
    · exact strContains_of_data _ _ "HTTP ".data (": ".data ++ text.data)
        (by simp [String.data_append])
    · exact strContains_of_data _ _
        ("HTTP ".data ++ (toString status).data ++ ": ".data) []
        (by simp [String.data_append])

/-- Witness for C2: a status-503 response with a non-parseable body. -/
theorem C2_witness :
    handleResponse 503 none none "x" none =
      .error (.ghostApiError ("HTTP " ++ toString 503 ++ ": " ++ "x")
        none (some "Non-JSON error response") none) ∧
    strContains ("HTTP " ++ toString 503 ++ ": " ++ "x") (toString 503) = true ∧
    strContains ("HTTP " ++ toString 503 ++ ": " ++ "x") "x" = true :=
  (C2_handle_response_amended 503 (by norm_num) none "x" none).2

/-- C7: against base URL http://localhost:2368 — normalized to a trailing
slash at construction — a Content request for endpoint posts/ targets
http://localhost:2368/ghost/api/content/posts/, and the query parameters of
the assembled request contain the entry key=<content_key>. -/
theorem C7_content_request_url (ckey : String) (hk : ckey.data.isEmpty = false)
    (heap : Nat → ParamsDict) (freshRef : Nat) (rid : Option String) :
    clientBaseUrl "http://localhost:2368" = "http://localhost:2368/" ∧
    buildUrl (clientBaseUrl "http://localhost:2368") "posts/" "content" =
      "http://localhost:2368/ghost/api/content/posts/" ∧
    ∃ desc heap2,
      makeRequestContent (clientBaseUrl "http://localhost:2368") ckey "GET" "posts/"
          heap none freshRef rid = .ok (desc, heap2) ∧
      desc.url = "http://localhost:2368/ghost/api/content/posts/" ∧
      (heap2 desc.paramsRef).lookup "key" = some (.str ckey) := by
  have hurl : buildUrl (clientBaseUrl "http://localhost:2368") "posts/" "content" =
      "http://localhost:2368/ghost/api/content/posts/" := by decide
  refine ⟨by decide, hurl,
    { method := "GET",
      url := buildUrl (clientBaseUrl "http://localhost:2368") "posts/" "content",
      headers := [("User-Agent", "Ghost-MCP/0.1.0")], paramsRef := freshRef },
    fun q => if q = freshRef then dictUpdate [] "key" (.str ckey) else heap q,
    ?_, hurl, ?_⟩
  · simp [makeRequestContent, hk]
  · simp [dictUpdate_lookup_self]

/-- Witness for C7: a concrete configured key and heap. -/
theorem C7_witness :
    clientBaseUrl "http://localhost:2368" = "http://localhost:2368/" ∧
    buildUrl (clientBaseUrl "http://localhost:2368") "posts/" "content" =
      "http://localhost:2368/ghost/api/content/posts/" ∧
    ∃ desc heap2,
      makeRequestContent (clientBaseUrl "http://localhost:2368") "k" "GET" "posts/"
          (fun _ => []) none 0 none = .ok (desc, heap2) ∧
      desc.url = "http://localhost:2368/ghost/api/content/posts/" ∧
      (heap2 desc.paramsRef).lookup "key" = some (.str "k") :=
  C7_content_request_url "k" (by decide) (fun _ => []) 0 none

/-- C9: when the caller supplies a params dictionary on a Content-surface
request, the handler writes the auth entry key=<content_key> into that same
dictionary in place — the request descriptor references the caller's
dictionary, the caller's reference now holds the updated dictionary, every
other entry of it is preserved, and no other dictionary on the heap is
touched. -/
theorem C9_params_in_place (base_url ckey method endpoint : String)
    (hk : ckey.data.isEmpty = false) (heap : Nat → ParamsDict)
    (ref freshRef : Nat) (rid : Option String) :
    ∃ desc heap2,
      makeRequestContent base_url ckey method endpoint heap (some ref) freshRef rid =
        .ok (desc, heap2) ∧
      desc.paramsRef = ref ∧
      heap2 ref = dictUpdate (heap ref) "key" (.str ckey) ∧
      (heap2 ref).lookup "key" = some (.str ckey) ∧
      (∀ k2, k2 ≠ "key" → (heap2 ref).lookup k2 = (heap ref).lookup k2) ∧
      (∀ q, q ≠ ref → heap2 q = heap q) := by
  refine ⟨{ method := method, url := buildUrl base_url endpoint "content",
            headers := [("User-Agent", "Ghost-MCP/0.1.0")], paramsRef := ref },
    fun q => if q = ref then dictUpdate (heap ref) "key" (.str ckey) else heap q,
    ?_, rfl, by simp, ?_, ?_, ?_⟩
  · simp [makeRequestContent, hk]
  · simp [dictUpdate_lookup_self]
  · intro k2 h2
    simp [dictUpdate_lookup_other (heap ref) "key" (.str ckey) k2 h2]
  · intro q hq
    simp [hq]

/-- Witness for C9: a caller-supplied dictionary with a limit entry. -/
theorem C9_witness :
    ∃ desc heap2,
      makeRequestContent "http://localhost:2368/" "k" "GET" "posts/"
          (fun _ => [("limit", PyVal.int 5)]) (some 3) 7 none = .ok (desc, heap2) ∧
      desc.paramsRef = 3 ∧
      heap2 3 = dictUpdate ((fun _ => [("limit", PyVal.int 5)] : Nat → ParamsDict) 3)
        "key" (.str "k") ∧
      (heap2 3).lookup "key" = some (.str "k") ∧
      (∀ k2, k2 ≠ "key" → (heap2 3).lookup k2 =
        ((fun _ => [("limit", PyVal.int 5)] : Nat → ParamsDict) 3).lookup k2) ∧
      (∀ q, q ≠ 3 → heap2 q = (fun _ => [("limit", PyVal.int 5)] : Nat → ParamsDict) q) :=
  C9_params_in_place "http://localhost:2368/" "k" "GET" "posts/" (by decide)
    (fun _ => [("limit", PyVal.int 5)]) 3 7 none

end GhostMCP

